import Mathlib

/-!
Verification of the storage IPC core (src/vs/platform/storage/node/storageIpc.ts):
a shallow embedding of the owner-side `GlobalStorageDatabaseChannel` (Gateway) and
the client-side `GlobalStorageDatabaseChannelClient` (Proxy), together with the
serialization codec and the debounce/coalesce primitive they depend on.

Mappings (JavaScript `Map`) are embedded as insertion-ordered association lists;
`Map.set` replaces the value of an existing key in place and appends a fresh key
at the end, `Map.get` reads the entry for a key, `Map.delete` removes it.  Stored
values are `Option String` (`none` models the JavaScript `null` that the telemetry
seeding may store); a `get` that can miss returns an `Option` of that (`none`
models `undefined`, the missing sentinel).
-/

namespace StorageIpc

abbrev Key := String

abbrev Value := String

/-- `type Item = [Key, Value]` from storageIpc.ts. -/
abbrev Item := Key × Value

/-- JavaScript `Map.set` on an insertion-ordered association list: replace the
value at the first entry holding the key, or append the pair at the end. -/
def mapSet {α : Type} : List (Key × α) → Key → α → List (Key × α)
  | [], k, v => [(k, v)]
  | p :: rest, k, v => if p.1 = k then (k, v) :: rest else p :: mapSet rest k v

/-- JavaScript `Map.get`: the value at the first entry holding the key. -/
def mapGet {α : Type} : List (Key × α) → Key → Option α
  | [], _ => none
  | p :: rest, k => if p.1 = k then some p.2 else mapGet rest k

/-- JavaScript `Map.delete`: drop the entry holding the key. -/
def mapDelete {α : Type} : List (Key × α) → Key → List (Key × α)
  | [], _ => []
  | p :: rest, k => if p.1 = k then mapDelete rest k else p :: mapDelete rest k

/-- Modelled from the spec: `mapToSerializable` (vs/base/common/map, not under
src/) encodes a mapping as its ordered sequence of entries, spec 4.1. On the
association-list embedding of `Map` this is the identity on the entry list. -/
def mapToSerializable {α : Type} (m : List (Key × α)) : List (Key × α) :=
  m

/-- Modelled from the spec: `serializableToMap` (vs/base/common/map, not under
src/) rebuilds a `Map` from an ordered sequence of entries by left-to-right
insertion, last occurrence of a duplicate key winning, spec 4.1. -/
def serializableToMap {α : Type} (items : List (Key × α)) : List (Key × α) :=
  items.foldl (fun acc it => mapSet acc it.1 it.2) []

/-- Modelled from the spec: `values` (vs/base/common/map, not under src/) lists
the elements of a `Set` in insertion order; on the list embedding of `Set` it is
the identity. -/
def values (s : List Key) : List Key :=
  s

/-- A value held by the storage collaborator: a string, or `none` for the
JavaScript `null` stored by the session-date rotation. -/
abbrev SVal := Option String

/-- The storage collaborator's state (spec 6: an external key/value store with
`get`, `store`, `remove`), embedded like a `Map` keyed by strings. -/
abbrev Store := List (Key × SVal)

/-- `storageMainService.get(key, undefined)`: `none` is `undefined` (absent). -/
def storeGet (s : Store) (k : Key) : Option SVal :=
  mapGet s k

/-- `storageMainService.store(key, value)`. -/
def storeSet (s : Store) (k : Key) (v : SVal) : Store :=
  mapSet s k v

/-- `storageMainService.remove(key)`. -/
def storeRemove (s : Store) (k : Key) : Store :=
  mapDelete s k

/-- Modelled from the spec: `instanceStorageKey` (vs/platform/telemetry/node/
workbenchCommonProperties, not under src/), a fixed well-known key, spec 3/6. -/
def instanceStorageKey : Key :=
  "telemetry.instanceId"

/-- Modelled from the spec: `firstSessionDateStorageKey`, a fixed well-known
key from workbenchCommonProperties (not under src/). -/
def firstSessionDateStorageKey : Key :=
  "telemetry.firstSessionDate"

/-- Modelled from the spec: `lastSessionDateStorageKey`, a fixed well-known key
from workbenchCommonProperties (not under src/). -/
def lastSessionDateStorageKey : Key :=
  "telemetry.lastSessionDate"

/-- Modelled from the spec: `currentSessionDateStorageKey`, a fixed well-known
key from workbenchCommonProperties (not under src/). -/
def currentSessionDateStorageKey : Key :=
  "telemetry.currentSessionDate"

/-- `GlobalStorageDatabaseChannel.initTelemetry`, with the two environment
inputs made explicit: `uuid` is the `generateUuid()` result and `now` the
`new Date().toUTCString()` result.  Follows the source line by line: create the
instance id and the first-session date only if absent, then read the previous
current-session date, store it (or `null` if it was `undefined`) under the
last-session key, and store `now` under the current-session key. -/
def initTelemetry (s : Store) (uuid now : String) : Store :=
  let s1 := match storeGet s instanceStorageKey with
    | none => storeSet s instanceStorageKey (some uuid)
    | some _ => s
  let s2 := match storeGet s1 firstSessionDateStorageKey with
    | none => storeSet s1 firstSessionDateStorageKey (some now)
    | some _ => s1
  let lastSessionDate := storeGet s2 currentSessionDateStorageKey
  let s3 := storeSet s2 lastSessionDateStorageKey
    (match lastSessionDate with
      | none => none
      | some sv => sv)
  storeSet s3 currentSessionDateStorageKey (some now)

/-- `interface ISerializableUpdateRequest { insert?: Item[]; delete?: Key[] }`.
`none` models an absent optional field. -/
structure SerializableUpdateRequest where
  insert : Option (List Item)
  delete : Option (List Key)
deriving DecidableEq

/-- The body of the `updateItems` case of `GlobalStorageDatabaseChannel.call`:
if the request carries an insert list, store each pair in order; then, if it
carries a delete list, remove each key in order. -/
def applyUpdateItems (s : Store) (arg : SerializableUpdateRequest) : Store :=
  let s1 := match arg.insert with
    | none => s
    | some ins => ins.foldl (fun st it => storeSet st it.1 (some it.2)) s
  match arg.delete with
  | none => s1
  | some dels => dels.foldl (fun st k => storeRemove st k) s1

/-- `IStorageChangeEvent`: the storage collaborator's raw per-key mutation
notification, carrying the mutated key. -/
structure StorageChangeEvent where
  key : Key
deriving DecidableEq

/-- The merge function the Gateway passes to `Event.debounce`
(`registerListeners`): start a fresh singleton list on the first raw event of a
window (`prev` still `undefined`), append afterwards. -/
def mergeDebounce (prev : Option (List StorageChangeEvent))
    (cur : StorageChangeEvent) : List StorageChangeEvent :=
  match prev with
  | none => [cur]
  | some l => l ++ [cur]

/-- Modelled from the spec: the accumulation side of `Event.debounce`
(vs/base/common/event, not under src/), spec 4.2 — each raw event arriving
within the quiet window is folded into the accumulator with the merge function,
starting from the `undefined` accumulator. -/
def accumulateRaw (raws : List StorageChangeEvent) :
    Option (List StorageChangeEvent) :=
  raws.foldl (fun acc cur => some (mergeDebounce acc cur)) none

/-- `GlobalStorageDatabaseChannel.serializeEvents`: fold the raw events of the
window into a fresh `Map`, keyed by the mutated key, each key mapped to the
value re-read from storage now (at flush time); a deleted key re-reads as the
missing sentinel `none`.  The resulting entry list is the fired payload. -/
def serializeEvents (s : Store) (events : List StorageChangeEvent) :
    List (Key × Option SVal) :=
  mapToSerializable
    (events.foldl (fun m e => mapSet m e.key (storeGet s e.key)) [])

/-- Modelled from the spec: the flush side of `Event.debounce` combined with the
Gateway's flush handler in `registerListeners` — when the quiet period elapses
the accumulated window is delivered once; the handler fires a single change
event carrying `serializeEvents` of the window when it is nonempty, and nothing
otherwise.  The result lists the change events fired by the flush. -/
def debounceFlush (s : Store) (acc : Option (List StorageChangeEvent)) :
    List (List (Key × Option SVal)) :=
  match acc with
  | none => []
  | some events => if events.length ≠ 0 then [serializeEvents s events] else []

/-- A remote operation of the Gateway's `call` surface. -/
inductive GatewayOp where
  | getItems
  | updateItems (arg : SerializableUpdateRequest)
  | checkIntegrity (full : Bool)
deriving DecidableEq

/-- The resolution value of one remote operation. -/
inductive OpResult where
  | items (its : List (Key × SVal))
  | done
  | integrity (report : String)
deriving DecidableEq

/-- The body of one `call` case, run on the post-initialization store:
`getItems` returns `mapToSerializable` of the full store, `updateItems` applies
the request, `checkIntegrity` delegates to the storage collaborator's primitive
(modelled as the function `integ`). -/
def execOp (integ : Bool → String) (s : Store) : GatewayOp → Store × OpResult
  | .getItems => (s, .items (mapToSerializable s))
  | .updateItems arg => (applyUpdateItems s arg, .done)
  | .checkIntegrity full => (s, .integrity (integ full))

/-- Run a sequence of remote operation bodies in issuance order, threading the
store, collecting each operation's resolution value. -/
def runOps (integ : Bool → String) (s : Store) :
    List GatewayOp → Store × List OpResult
  | [] => (s, [])
  | op :: rest =>
    let p := execOp integ s op
    let q := runOps integ p.1 rest
    (q.1, p.2 :: q.2)

/-- The Gateway's observable state once the `init` promise chain has settled. -/
structure GatewayState where
  store : Store
  ready : Bool
  loggedErrors : List String
  listenersRegistered : Bool
deriving DecidableEq

/-- `GlobalStorageDatabaseChannel.init`: `storageMainService.initialize()`
settles with `initRes`; a rejection is routed to the error handler, which logs
it and returns normally, so the follow-up continuation always runs: it seeds
the telemetry values (`initTelemetry`) and registers the change listeners, and
the `whenReady` promise resolves (`ready := true`). -/
def gatewayInit (initRes : Except String Unit) (uuid now : String)
    (s0 : Store) : GatewayState :=
  { store := initTelemetry s0 uuid now
    ready := true
    loggedErrors := match initRes with
      | .ok _ => []
      | .error e => [e]
    listenersRegistered := true }

/-- Remote calls issued before initialization completes: each `call` case
chains its body on `whenReady`, so the bodies run after the initialization
continuation, in the order the calls were issued.  The result is the final
Gateway state and the resolution value of every issued call. -/
def runGateway (integ : Bool → String) (initRes : Except String Unit)
    (uuid now : String) (s0 : Store) (ops : List GatewayOp) :
    GatewayState × List OpResult :=
  let st := gatewayInit initRes uuid now s0
  let p := runOps integ st.store ops
  ({ st with store := p.1 }, p.2)

/-- `IUpdateRequest` as the Proxy receives it: `insert` is a `Map` of pairs to
write (embedded as its ordered entry list), `delete` a `Set` of keys (embedded
as its ordered element list); either may be absent. -/
structure UpdateRequest where
  insert : Option (List (Key × Value))
  delete : Option (List Key)
deriving DecidableEq

/-- A remote call issued by the Proxy over the channel. -/
inductive RemoteCall where
  | getItems
  | updateItems (arg : SerializableUpdateRequest)
  | checkIntegrity (full : Bool)
deriving DecidableEq

/-- The serializable request `GlobalStorageDatabaseChannelClient.updateItems`
builds: the insert `Map` through `mapToSerializable`, the delete `Set` through
`values`; absent parts stay absent. -/
def serializeRequest (request : UpdateRequest) : SerializableUpdateRequest :=
  { insert := request.insert.map mapToSerializable
    delete := (request.delete).map values }

/-- The update count `GlobalStorageDatabaseChannelClient.updateItems` tallies:
the size of the insert `Map` plus the size of the delete `Set`, counting an
absent part as zero. -/
def updateCount (request : UpdateRequest) : Nat :=
  (match request.insert with
    | none => 0
    | some m => m.length) +
  (match request.delete with
    | none => 0
    | some s => s.length)

/-- `GlobalStorageDatabaseChannelClient.updateItems`: when the tallied update
count is zero it resolves immediately without touching the channel, otherwise
it issues exactly one `updateItems` call carrying the serialized request.  The
result lists the remote calls issued. -/
def clientUpdateItems (request : UpdateRequest) : List RemoteCall :=
  if updateCount request = 0 then []
  else [RemoteCall.updateItems (serializeRequest request)]

/-- The runtime shape of the `items` field of an incoming
`ISerializableItemsChangeEvent` payload at the Proxy: an array of items, or
anything that is not an array (`Array.isArray` fails). -/
inductive ChangeEventPayload where
  | arr (items : List Item)
  | notArray
deriving DecidableEq

/-- `GlobalStorageDatabaseChannelClient.onDidChangeItemsOnMain`: when the
payload's `items` field is an array, fire the local external-change event once,
carrying `serializableToMap` of the items; otherwise fire nothing.  The result
lists the local events fired. -/
def onDidChangeItemsOnMain (e : ChangeEventPayload) :
    List (List (Key × Value)) :=
  match e with
  | .arr items => [serializableToMap items]
  | .notArray => []

/-- The Proxy's lifecycle state: whether its subscription to the remote change
event is still active, and whether its own local emitter is still live
(released by `Disposable.dispose`). -/
structure ClientState where
  listenerActive : Bool
  emitterActive : Bool
deriving DecidableEq

/-- `dispose(this.onDidChangeItemsOnMainListener)` — releasing the subscription
handle; releasing an already-released handle changes nothing. -/
def disposeListener (st : ClientState) : ClientState :=
  { st with listenerActive := false }

/-- `GlobalStorageDatabaseChannelClient.close`: release the subscription to the
remote change event and resolve immediately; no remote call is issued.  The
result pairs the new state with the list of remote calls issued. -/
def clientClose (st : ClientState) : ClientState × List RemoteCall :=
  (disposeListener st, [])

/-- `GlobalStorageDatabaseChannelClient.dispose`: `super.dispose()` releases the
registered local emitter, then the subscription handle is released as well. -/
def clientDispose (st : ClientState) : ClientState :=
  disposeListener { st with emitterActive := false }

/-- A teardown step invoked on the Proxy. -/
inductive TeardownOp where
  | close
  | dispose
deriving DecidableEq

/-- Run a sequence of `close`/`dispose` steps, collecting every remote call any
of them issues. -/
def runTeardown : ClientState → List TeardownOp → ClientState × List RemoteCall
  | st, [] => (st, [])
  | st, .close :: rest =>
    let p := clientClose st
    let q := runTeardown p.1 rest
    (q.1, p.2 ++ q.2)
  | st, .dispose :: rest => runTeardown (clientDispose st) rest

theorem mapGet_mapSet_self {α : Type} (m : List (Key × α)) (k : Key) (v : α) :
    mapGet (mapSet m k v) k = some v := by
  induction m with
  | nil => simp [mapSet, mapGet]
  | cons p rest ih =>
    by_cases h : p.1 = k
    · simp [mapSet, mapGet, h]
    · simp [mapSet, mapGet, h, ih]

theorem mapGet_mapSet_other {α : Type} (m : List (Key × α)) (k k' : Key)
    (v : α) (h : k' ≠ k) : mapGet (mapSet m k v) k' = mapGet m k' := by
  induction m with
  | nil => simp [mapSet, mapGet, Ne.symm h]
  | cons p rest ih =>
    by_cases hp : p.1 = k
    · subst hp
      simp [mapSet, mapGet, Ne.symm h]
    · by_cases hq : p.1 = k'
      · simp [mapSet, mapGet, hp, hq, h]
      · simp [mapSet, mapGet, hp, hq, h, ih]

theorem mapGet_mapSet {α : Type} (m : List (Key × α)) (k k' : Key) (v : α) :
    mapGet (mapSet m k v) k' = if k = k' then some v else mapGet m k' := by
  by_cases h : k = k'
  · subst h
    simp [mapGet_mapSet_self]
  · simp [h, mapGet_mapSet_other m k k' v (Ne.symm h)]

theorem mapSet_of_forall_ne {α : Type} (m : List (Key × α)) (k : Key) (v : α)
    (h : ∀ p ∈ m, p.1 ≠ k) : mapSet m k v = m ++ [(k, v)] := by
  induction m with
  | nil => rfl
  | cons p rest ih =>
    have hp : p.1 ≠ k := h p (List.mem_cons_self p rest)
    simp only [mapSet, if_neg hp, List.cons_append, List.cons.injEq, true_and]
    exact ih fun q hq => h q (List.mem_cons_of_mem p hq)

theorem mem_keys_mapSet {α : Type} (m : List (Key × α)) (k k' : Key) (v : α) :
    k' ∈ (mapSet m k v).map Prod.fst ↔ k' ∈ m.map Prod.fst ∨ k' = k := by
  induction m with
  | nil => simp [mapSet]
  | cons p rest ih =>
    by_cases hp : p.1 = k
    · subst hp
      simp [mapSet]
      tauto
    · simp [mapSet, hp, ih]
      tauto

theorem keys_nodup_mapSet {α : Type} (m : List (Key × α)) (k : Key) (v : α)
    (h : (m.map Prod.fst).Nodup) : ((mapSet m k v).map Prod.fst).Nodup := by
  induction m with
  | nil => simp [mapSet]
  | cons p rest ih =>
    simp only [List.map_cons, List.nodup_cons] at h
    by_cases hp : p.1 = k
    · simp only [mapSet, if_pos hp, List.map_cons, List.nodup_cons]
      rw [← hp]
      exact h
    · simp only [mapSet, if_neg hp, List.map_cons, List.nodup_cons]
      refine ⟨?_, ih h.2⟩
      rw [mem_keys_mapSet]
      push_neg
      exact ⟨h.1, hp⟩

theorem mapSet_value_invariant {α : Type} (m : List (Key × α)) (k : Key)
    (f : Key → α) (hm : ∀ p ∈ m, p.2 = f p.1) :
    ∀ p ∈ mapSet m k (f k), p.2 = f p.1 := by
  induction m with
  | nil =>
    intro p hp
    simp [mapSet] at hp
    subst hp
    rfl
  | cons q rest ih =>
    intro p hp
    by_cases hq : q.1 = k
    · simp only [mapSet, if_pos hq, List.mem_cons] at hp
      rcases hp with hp | hp
      · subst hp
        rfl
      · exact hm p (List.mem_cons_of_mem q hp)
    · simp only [mapSet, if_neg hq, List.mem_cons] at hp
      rcases hp with hp | hp
      · subst hp
        exact hm p (List.mem_cons_self p rest)
      · exact ih (fun r hr => hm r (List.mem_cons_of_mem q hr)) p hp

theorem mem_keys_iff_exists_value {α : Type} (m : List (Key × α)) (k : Key) :
    k ∈ m.map Prod.fst ↔ ∃ v, (k, v) ∈ m := by
  constructor
  · intro h
    rcases List.mem_map.mp h with ⟨p, hp, he⟩
    refine ⟨p.2, ?_⟩
    have hpk : (k, p.2) = p := by
      rcases p with ⟨a, b⟩
      simp only at he
      simp [he]
    rw [hpk]
    exact hp
  · rintro ⟨v, hv⟩
    exact List.mem_map.mpr ⟨(k, v), hv, rfl⟩

theorem foldl_mapSet_of_nodup {α : Type} (m : List (Key × α)) :
    ∀ acc : List (Key × α), (acc.map Prod.fst ++ m.map Prod.fst).Nodup →
    m.foldl (fun a it => mapSet a it.1 it.2) acc = acc ++ m := by
  induction m with
  | nil =>
    intro acc _
    simp
  | cons p rest ih =>
    intro acc h
    obtain ⟨k, v⟩ := p
    have hne : ∀ q ∈ acc, q.1 ≠ k := by
      intro q hq
      have hd := (List.nodup_append.mp h).2.2
      intro he
      exact hd (List.mem_map.mpr ⟨q, hq, he⟩) (by simp)
    rw [List.foldl_cons]
    simp only
    rw [mapSet_of_forall_ne acc k v hne]
    rw [ih (acc ++ [(k, v)]) (by simpa [List.append_assoc] using h)]
    simp

/-- C2: decoding the encoded Item sequence of a mapping with unique keys yields
the mapping back: serializableToMap (mapToSerializable m) = m; this is the
codec through which getItems transports the Snapshot from Gateway to Proxy. -/
theorem codec_roundtrip (m : List (Key × Value))
    (h : (m.map Prod.fst).Nodup) :
    serializableToMap (mapToSerializable m) = m := by
  unfold serializableToMap mapToSerializable
  simpa using foldl_mapSet_of_nodup m [] (by simpa using h)

/-- C2 witness: the round trip evaluated on a concrete two-key mapping. -/
theorem codec_roundtrip_witness :
    (([("a", "1"), ("b", "2")] : List (Key × Value)).map Prod.fst).Nodup ∧
    serializableToMap (mapToSerializable [("a", "1"), ("b", "2")]) =
      [("a", "1"), ("b", "2")] :=
  ⟨by decide, codec_roundtrip [("a", "1"), ("b", "2")] (by decide)⟩

theorem storeGet_storeSet (s : Store) (k k' : Key) (v : SVal) :
    storeGet (storeSet s k v) k' = if k = k' then some v else storeGet s k' :=
  mapGet_mapSet s k k' v

theorem mapGet_mapDelete_self {α : Type} (m : List (Key × α)) (k : Key) :
    mapGet (mapDelete m k) k = none := by
  induction m with
  | nil => rfl
  | cons p rest ih =>
    by_cases h : p.1 = k
    · simpa [mapDelete, h] using ih
    · simpa [mapDelete, mapGet, h] using ih

theorem mapGet_mapDelete_other {α : Type} (m : List (Key × α)) (k k' : Key)
    (h : k' ≠ k) : mapGet (mapDelete m k) k' = mapGet m k' := by
  induction m with
  | nil => rfl
  | cons p rest ih =>
    by_cases hp : p.1 = k
    · subst hp
      simp [mapDelete, mapGet, Ne.symm h, ih]
    · by_cases hq : p.1 = k'
      · simp [mapDelete, mapGet, hp, hq, h]
      · simp [mapDelete, mapGet, hp, hq, h, ih]

theorem storeGet_storeRemove_self (s : Store) (k : Key) :
    storeGet (storeRemove s k) k = none :=
  mapGet_mapDelete_self s k

theorem storeGet_storeRemove_none (s : Store) (k k' : Key)
    (h : storeGet s k' = none) : storeGet (storeRemove s k) k' = none := by
  by_cases hk : k' = k
  · subst hk
    exact storeGet_storeRemove_self s k'
  · exact (mapGet_mapDelete_other s k k' hk).trans h

theorem foldl_storeRemove_none (dels : List Key) (s : Store) (k : Key)
    (h : storeGet s k = none) :
    storeGet (dels.foldl (fun st k2 => storeRemove st k2) s) k = none := by
  induction dels generalizing s with
  | nil => exact h
  | cons d rest ih =>
    rw [List.foldl_cons]
    exact ih (storeRemove s d) (storeGet_storeRemove_none s d k h)

theorem foldl_storeRemove_mem (dels : List Key) (s : Store) (k : Key)
    (h : k ∈ dels) :
    storeGet (dels.foldl (fun st k2 => storeRemove st k2) s) k = none := by
  induction dels generalizing s with
  | nil => cases h
  | cons d rest ih =>
    rw [List.foldl_cons]
    rcases List.mem_cons.mp h with he | he
    · subst he
      exact foldl_storeRemove_none rest (storeRemove s k) k
        (storeGet_storeRemove_self s k)
    · exact ih (storeRemove s d) he

theorem initTelemetry_reads (s : Store) (uuid now : String) :
    storeGet (initTelemetry s uuid now) instanceStorageKey =
      some ((storeGet s instanceStorageKey).getD (some uuid)) ∧
    storeGet (initTelemetry s uuid now) firstSessionDateStorageKey =
      some ((storeGet s firstSessionDateStorageKey).getD (some now)) ∧
    storeGet (initTelemetry s uuid now) lastSessionDateStorageKey =
      some (storeGet s currentSessionDateStorageKey).join ∧
    storeGet (initTelemetry s uuid now) currentSessionDateStorageKey =
      some (some now) := by
  have eIF : (instanceStorageKey = firstSessionDateStorageKey) = False :=
    eq_false (by decide)
  have eIL : (instanceStorageKey = lastSessionDateStorageKey) = False :=
    eq_false (by decide)
  have eIC : (instanceStorageKey = currentSessionDateStorageKey) = False :=
    eq_false (by decide)
  have eFI : (firstSessionDateStorageKey = instanceStorageKey) = False :=
    eq_false (by decide)
  have eFL : (firstSessionDateStorageKey = lastSessionDateStorageKey) = False :=
    eq_false (by decide)
  have eFC : (firstSessionDateStorageKey = currentSessionDateStorageKey) = False :=
    eq_false (by decide)
  have eLI : (lastSessionDateStorageKey = instanceStorageKey) = False :=
    eq_false (by decide)
  have eLF : (lastSessionDateStorageKey = firstSessionDateStorageKey) = False :=
    eq_false (by decide)
  have eLC : (lastSessionDateStorageKey = currentSessionDateStorageKey) = False :=
    eq_false (by decide)
  have eCI : (currentSessionDateStorageKey = instanceStorageKey) = False :=
    eq_false (by decide)
  have eCF : (currentSessionDateStorageKey = firstSessionDateStorageKey) = False :=
    eq_false (by decide)
  have eCL : (currentSessionDateStorageKey = lastSessionDateStorageKey) = False :=
    eq_false (by decide)
  unfold initTelemetry
  rcases h1 : storeGet s instanceStorageKey with _ | v1 <;>
    rcases h2 : storeGet s firstSessionDateStorageKey with _ | v2 <;>
      rcases h3 : storeGet s currentSessionDateStorageKey with _ | v3 <;>
        simp [h1, h2, h3, storeGet_storeSet,
          eIF, eIL, eIC, eFI, eFL, eFC, eLI, eLF, eLC, eCI, eCF, eCL]

/-- C3: identity seeding is idempotent for the installation id and the
first-session date (never rewritten once set, created with the fresh values if
absent), while every initialization run rewrites the current-session date with
the fresh value and writes the last-session date with the previous
current-session value (null when there was none), rotating current into last. -/
theorem telemetry_seed_idempotent (s : Store) (uuid now : String) :
    (∀ v, storeGet s instanceStorageKey = some v →
      storeGet (initTelemetry s uuid now) instanceStorageKey = some v) ∧
    (∀ v, storeGet s firstSessionDateStorageKey = some v →
      storeGet (initTelemetry s uuid now) firstSessionDateStorageKey = some v) ∧
    (storeGet s instanceStorageKey = none →
      storeGet (initTelemetry s uuid now) instanceStorageKey =
        some (some uuid)) ∧
    (storeGet s firstSessionDateStorageKey = none →
      storeGet (initTelemetry s uuid now) firstSessionDateStorageKey =
        some (some now)) ∧
    storeGet (initTelemetry s uuid now) currentSessionDateStorageKey =
      some (some now) ∧
    (∀ v, storeGet s currentSessionDateStorageKey = some v →
      storeGet (initTelemetry s uuid now) lastSessionDateStorageKey = some v) ∧
    (storeGet s currentSessionDateStorageKey = none →
      storeGet (initTelemetry s uuid now) lastSessionDateStorageKey =
        some none) := by
  obtain ⟨r1, r2, r3, r4⟩ := initTelemetry_reads s uuid now
  refine ⟨?_, ?_, ?_, ?_, r4, ?_, ?_⟩
  · intro v hv
    rw [r1, hv]
    rfl
  · intro v hv
    rw [r2, hv]
    rfl
  · intro hv
    rw [r1, hv]
    rfl
  · intro hv
    rw [r2, hv]
    rfl
  · intro v hv
    rw [r3, hv]
    rfl
  · intro hv
    rw [r3, hv]
    rfl

/-- C3 witness: seeding a store that already holds an installation id and a
current-session date keeps the id, refreshes the current-session date and
rotates the old one into the last-session date. -/
theorem telemetry_seed_idempotent_witness :
    storeGet [(instanceStorageKey, some "id0"),
        (currentSessionDateStorageKey, some "d1")] instanceStorageKey =
      some (some "id0") ∧
    storeGet (initTelemetry [(instanceStorageKey, some "id0"),
        (currentSessionDateStorageKey, some "d1")] "u" "d2")
      instanceStorageKey = some (some "id0") ∧
    storeGet (initTelemetry [(instanceStorageKey, some "id0"),
        (currentSessionDateStorageKey, some "d1")] "u" "d2")
      currentSessionDateStorageKey = some (some "d2") ∧
    storeGet (initTelemetry [(instanceStorageKey, some "id0"),
        (currentSessionDateStorageKey, some "d1")] "u" "d2")
      lastSessionDateStorageKey = some (some "d1") :=
  ⟨by decide,
   (telemetry_seed_idempotent [(instanceStorageKey, some "id0"),
      (currentSessionDateStorageKey, some "d1")] "u" "d2").1
     (some "id0") (by decide),
   (telemetry_seed_idempotent [(instanceStorageKey, some "id0"),
      (currentSessionDateStorageKey, some "d1")] "u" "d2").2.2.2.2.1,
   (telemetry_seed_idempotent [(instanceStorageKey, some "id0"),
      (currentSessionDateStorageKey, some "d1")] "u" "d2").2.2.2.2.2.1
     (some "d1") (by decide)⟩

/-- C4: the Gateway's updateItems applies all inserts before any deletions, so
a key present in both the insert list and the delete list is absent from
storage after the call completes. -/
theorem updateItems_insert_before_delete (s : Store)
    (arg : SerializableUpdateRequest) (ins : List Item) (dels : List Key)
    (hi : arg.insert = some ins) (hd : arg.delete = some dels) (k : Key)
    (_hki : k ∈ ins.map Prod.fst) (hkd : k ∈ dels) :
    applyUpdateItems s arg =
      dels.foldl (fun st k2 => storeRemove st k2)
        (ins.foldl (fun st it => storeSet st it.1 (some it.2)) s) ∧
    storeGet (applyUpdateItems s arg) k = none := by
  have happ : applyUpdateItems s arg =
      dels.foldl (fun st k2 => storeRemove st k2)
        (ins.foldl (fun st it => storeSet st it.1 (some it.2)) s) := by
    simp [applyUpdateItems, hi, hd]
  refine ⟨happ, ?_⟩
  rw [happ]
  exact foldl_storeRemove_mem dels
    (ins.foldl (fun st it => storeSet st it.1 (some it.2)) s) k hkd

/-- C4 witness: inserting and deleting the key a in one request leaves it
absent. -/
theorem updateItems_insert_before_delete_witness :
    ({ insert := some [("a", "1")], delete := some ["a"] } :
        SerializableUpdateRequest).insert = some [("a", "1")] ∧
    ({ insert := some [("a", "1")], delete := some ["a"] } :
        SerializableUpdateRequest).delete = some ["a"] ∧
    "a" ∈ ([("a", "1")] : List Item).map Prod.fst ∧
    "a" ∈ ["a"] ∧
    storeGet (applyUpdateItems [("b", some "0")]
      { insert := some [("a", "1")], delete := some ["a"] }) "a" = none :=
  ⟨rfl, rfl, by decide, by decide,
   (updateItems_insert_before_delete [("b", some "0")]
     { insert := some [("a", "1")], delete := some ["a"] }
     [("a", "1")] ["a"] rfl rfl "a" (by decide) (by decide)).2⟩

theorem eventsFold_keys_nodup (s : Store) (events : List StorageChangeEvent) :
    ∀ acc : List (Key × Option SVal), (acc.map Prod.fst).Nodup →
    ((events.foldl (fun m e => mapSet m e.key (storeGet s e.key)) acc).map
      Prod.fst).Nodup := by
  induction events with
  | nil => exact fun acc h => h
  | cons e rest ih =>
    intro acc h
    rw [List.foldl_cons]
    exact ih (mapSet acc e.key (storeGet s e.key))
      (keys_nodup_mapSet acc e.key (storeGet s e.key) h)

theorem eventsFold_mem_keys (s : Store) (events : List StorageChangeEvent)
    (k : Key) :
    ∀ acc : List (Key × Option SVal),
    (k ∈ (events.foldl (fun m e => mapSet m e.key (storeGet s e.key)) acc).map
        Prod.fst ↔
      k ∈ acc.map Prod.fst ∨ k ∈ events.map StorageChangeEvent.key) := by
  induction events with
  | nil =>
    intro acc
    simp
  | cons e rest ih =>
    intro acc
    rw [List.foldl_cons, ih (mapSet acc e.key (storeGet s e.key)),
      mem_keys_mapSet]
    simp only [List.map_cons, List.mem_cons]
    tauto

theorem eventsFold_values (s : Store) (events : List StorageChangeEvent) :
    ∀ acc : List (Key × Option SVal),
    (∀ p ∈ acc, p.2 = storeGet s p.1) →
    ∀ p ∈ events.foldl (fun m e => mapSet m e.key (storeGet s e.key)) acc,
      p.2 = storeGet s p.1 := by
  induction events with
  | nil => exact fun acc h => h
  | cons e rest ih =>
    intro acc h
    rw [List.foldl_cons]
    exact ih (mapSet acc e.key (storeGet s e.key))
      (mapSet_value_invariant acc e.key (fun k2 => storeGet s k2) h)

theorem serializeEvents_keys_nodup (s : Store)
    (events : List StorageChangeEvent) :
    ((serializeEvents s events).map Prod.fst).Nodup :=
  eventsFold_keys_nodup s events [] (by simp)

theorem serializeEvents_mem (s : Store) (events : List StorageChangeEvent)
    (k : Key) (hk : k ∈ events.map StorageChangeEvent.key) :
    (k, storeGet s k) ∈ serializeEvents s events := by
  have hmem : k ∈ (serializeEvents s events).map Prod.fst := by
    rw [serializeEvents, mapToSerializable, eventsFold_mem_keys]
    exact Or.inr hk
  rcases (mem_keys_iff_exists_value _ k).mp hmem with ⟨v, hv⟩
  have hval := eventsFold_values s events [] (by simp) (k, v) hv
  simpa [← hval] using hv

theorem serializeEvents_mem_inv (s : Store) (events : List StorageChangeEvent)
    (k : Key) (v : Option SVal) (hv : (k, v) ∈ serializeEvents s events) :
    v = storeGet s k ∧ k ∈ events.map StorageChangeEvent.key := by
  refine ⟨eventsFold_values s events [] (by simp) (k, v) hv, ?_⟩
  have hmem : k ∈ (serializeEvents s events).map Prod.fst :=
    (mem_keys_iff_exists_value _ k).mpr ⟨v, hv⟩
  rw [serializeEvents, mapToSerializable, eventsFold_mem_keys] at hmem
  simpa using hmem

theorem accumulateRaw_from_some (l : List StorageChangeEvent) :
    ∀ acc : List StorageChangeEvent,
    l.foldl (fun a c => some (mergeDebounce a c)) (some acc) = some (acc ++ l) := by
  induction l with
  | nil =>
    intro acc
    simp
  | cons c rest ih =>
    intro acc
    rw [List.foldl_cons]
    have hmerge : mergeDebounce (some acc) c = acc ++ [c] := rfl
    rw [hmerge, ih (acc ++ [c])]
    simp

theorem accumulateRaw_ne_nil (raws : List StorageChangeEvent)
    (h : raws ≠ []) : accumulateRaw raws = some raws := by
  rcases raws with _ | ⟨r, rest⟩
  · exact absurd rfl h
  · rw [accumulateRaw, List.foldl_cons]
    simpa [mergeDebounce] using accumulateRaw_from_some rest [r]

/-- C5: raw events arriving within one debounce window produce exactly one
change event at flush time, holding exactly one entry per distinct changed key,
each paired with the value re-read from storage at flush time. -/
theorem debounce_coalescing (s : Store) (raws : List StorageChangeEvent)
    (h : raws ≠ []) :
    debounceFlush s (accumulateRaw raws) = [serializeEvents s raws] ∧
    ((serializeEvents s raws).map Prod.fst).Nodup ∧
    (∀ k, k ∈ raws.map StorageChangeEvent.key →
      (k, storeGet s k) ∈ serializeEvents s raws) ∧
    (∀ k v, (k, v) ∈ serializeEvents s raws →
      v = storeGet s k ∧ k ∈ raws.map StorageChangeEvent.key) := by
  refine ⟨?_, serializeEvents_keys_nodup s raws,
    fun k hk => serializeEvents_mem s raws k hk,
    fun k v hv => serializeEvents_mem_inv s raws k v hv⟩
  rw [accumulateRaw_ne_nil raws h]
  simp [debounceFlush, List.length_eq_zero, h]

/-- C5 witness: raw events for a, b, a and the store holding a = 1 flush to a
single event with one entry per key, b re-read as missing. -/
theorem debounce_coalescing_witness :
    (([⟨"a"⟩, ⟨"b"⟩, ⟨"a"⟩] : List StorageChangeEvent) ≠ []) ∧
    debounceFlush [("a", some "1")] (accumulateRaw [⟨"a"⟩, ⟨"b"⟩, ⟨"a"⟩]) =
      [serializeEvents [("a", some "1")] [⟨"a"⟩, ⟨"b"⟩, ⟨"a"⟩]] ∧
    serializeEvents [("a", some "1")] [⟨"a"⟩, ⟨"b"⟩, ⟨"a"⟩] =
      [("a", some (some "1")), ("b", none)] :=
  ⟨by decide,
   (debounce_coalescing [("a", some "1")] [⟨"a"⟩, ⟨"b"⟩, ⟨"a"⟩] (by decide)).1,
   by decide⟩

/-- C10: a key that changed during the window but is deleted from storage by
flush time is still included in the serialized change event, paired with the
missing sentinel of the no-fallback re-read, rather than omitted. -/
theorem deleted_key_reported_with_sentinel (s : Store)
    (raws : List StorageChangeEvent) (k : Key)
    (hk : k ∈ raws.map StorageChangeEvent.key)
    (hd : storeGet s k = none) :
    (k, (none : Option SVal)) ∈ serializeEvents s raws := by
  have hmem := serializeEvents_mem s raws k hk
  rwa [hd] at hmem

/-- C10 witness: key a changed but is absent from the store at flush time, and
the serialized event still carries it, with the missing sentinel. -/
theorem deleted_key_reported_with_sentinel_witness :
    "a" ∈ ([⟨"a"⟩] : List StorageChangeEvent).map StorageChangeEvent.key ∧
    storeGet [("b", some "0")] "a" = none ∧
    ("a", (none : Option SVal)) ∈ serializeEvents [("b", some "0")] [⟨"a"⟩] :=
  ⟨by decide, by decide,
   deleted_key_reported_with_sentinel [("b", some "0")] [⟨"a"⟩] "a"
     (by decide) (by decide)⟩

theorem runOps_length (integ : Bool → String) (s : Store)
    (ops : List GatewayOp) : (runOps integ s ops).2.length = ops.length := by
  induction ops generalizing s with
  | nil => rfl
  | cons op rest ih => simp [runOps, ih]

/-- C1: remote operation bodies run only after the initialization continuation
has completed, in issuance order — every operation issued before readiness
resolves, and for a getItems, updateItems, getItems sequence issued before
initialization completes, the first getItems sees the post-initialization
store, the updateItems resolves, and its effect is visible to the subsequent
getItems. -/
theorem ready_gated_ordering (integ : Bool → String)
    (initRes : Except String Unit) (uuid now : String) (s0 : Store) :
    (∀ ops, (runGateway integ initRes uuid now s0 ops).2.length = ops.length) ∧
    (∀ r, (runGateway integ initRes uuid now s0
        [GatewayOp.getItems, GatewayOp.updateItems r, GatewayOp.getItems]).2 =
      [OpResult.items (mapToSerializable (gatewayInit initRes uuid now s0).store),
       OpResult.done,
       OpResult.items (mapToSerializable
         (applyUpdateItems (gatewayInit initRes uuid now s0).store r))]) := by
  constructor
  · intro ops
    exact runOps_length integ (gatewayInit initRes uuid now s0).store ops
  · intro r
    rfl

/-- C6: the Proxy's updateItems issues zero remote calls exactly when the
request has neither inserts nor deletes (absent or empty on both sides), and
otherwise issues exactly one updateItems call carrying the serialized
request. -/
theorem noop_update_suppressed (request : UpdateRequest) :
    (updateCount request = 0 → clientUpdateItems request = []) ∧
    (updateCount request ≠ 0 →
      clientUpdateItems request =
        [RemoteCall.updateItems (serializeRequest request)]) ∧
    (updateCount request = 0 ↔
      (request.insert = none ∨ request.insert = some []) ∧
      (request.delete = none ∨ request.delete = some [])) := by
  refine ⟨fun h => by simp [clientUpdateItems, h],
    fun h => by simp [clientUpdateItems, h], ?_⟩
  rcases request with ⟨ins, dels⟩
  rcases ins with _ | ins <;> rcases dels with _ | dels <;>
    simp [updateCount, List.length_eq_zero, Nat.add_eq_zero]

/-- C6 witness: an empty request issues no call; a one-insert request issues
exactly one serialized updateItems call. -/
theorem noop_update_suppressed_witness :
    clientUpdateItems { insert := none, delete := none } = [] ∧
    clientUpdateItems { insert := some [("a", "1")], delete := none } =
      [RemoteCall.updateItems { insert := some [("a", "1")], delete := none }] :=
  ⟨(noop_update_suppressed { insert := none, delete := none }).1 (by decide),
   by
     have h := (noop_update_suppressed
       { insert := some [("a", "1")], delete := none }).2.1 (by decide)
     simpa [serializeRequest, mapToSerializable] using h⟩

/-- C7: when the storage collaborator's initialize rejects, the Gateway logs
the error without rethrowing and still seeds the telemetry values, registers
the change listeners and reaches the ready state, so every remote operation
remains servable. -/
theorem init_failure_tolerated (e : String) (uuid now : String) (s0 : Store)
    (integ : Bool → String) (ops : List GatewayOp) :
    (gatewayInit (Except.error e) uuid now s0).ready = true ∧
    (gatewayInit (Except.error e) uuid now s0).listenersRegistered = true ∧
    (gatewayInit (Except.error e) uuid now s0).loggedErrors = [e] ∧
    (gatewayInit (Except.error e) uuid now s0).store =
      initTelemetry s0 uuid now ∧
    (runGateway integ (Except.error e) uuid now s0 ops).2.length =
      ops.length :=
  ⟨rfl, rfl, rfl, rfl,
   runOps_length integ (gatewayInit (Except.error e) uuid now s0).store ops⟩

/-- C8: an incoming change-event payload whose items field is not an array is
dropped without firing a local event, while an array payload fires exactly one
local event carrying the decoded mapping. -/
theorem malformed_payload_dropped :
    onDidChangeItemsOnMain ChangeEventPayload.notArray = [] ∧
    ∀ items, onDidChangeItemsOnMain (ChangeEventPayload.arr items) =
      [serializableToMap items] :=
  ⟨rfl, fun _ => rfl⟩

theorem runTeardown_no_calls (ops : List TeardownOp) :
    ∀ st : ClientState, (runTeardown st ops).2 = [] := by
  induction ops with
  | nil => exact fun _ => rfl
  | cons op rest ih =>
    intro st
    cases op <;> simp [runTeardown, clientClose, ih]

theorem runTeardown_listener_stays (ops : List TeardownOp) :
    ∀ st : ClientState, st.listenerActive = false →
    (runTeardown st ops).1.listenerActive = false := by
  induction ops with
  | nil => exact fun _ h => h
  | cons op rest ih =>
    intro st h
    cases op
    · exact ih (disposeListener st) rfl
    · exact ih (clientDispose st) rfl

/-- C9: close releases the subscription to the remote change event and issues
no remote call, and any nonempty sequence of close and dispose steps issues no
remote call and leaves the subscription released — releasing is idempotent and
safe to repeat. -/
theorem close_idempotent_no_remote (st : ClientState) (ops : List TeardownOp)
    (h : ops ≠ []) :
    (clientClose st).2 = [] ∧
    (clientClose st).1.listenerActive = false ∧
    (runTeardown st ops).2 = [] ∧
    (runTeardown st ops).1.listenerActive = false := by
  refine ⟨rfl, rfl, runTeardown_no_calls ops st, ?_⟩
  rcases ops with _ | ⟨op, rest⟩
  · exact absurd rfl h
  · cases op
    · exact runTeardown_listener_stays rest (disposeListener st) rfl
    · exact runTeardown_listener_stays rest (clientDispose st) rfl

/-- C9 witness: closing twice and then disposing, starting from a live client,
issues no remote call and leaves the subscription released. -/
theorem close_idempotent_no_remote_witness :
    ([TeardownOp.close, TeardownOp.close, TeardownOp.dispose] ≠
      ([] : List TeardownOp)) ∧
    (runTeardown { listenerActive := true, emitterActive := true }
      [TeardownOp.close, TeardownOp.close, TeardownOp.dispose]).2 = [] ∧
    (runTeardown { listenerActive := true, emitterActive := true }
      [TeardownOp.close, TeardownOp.close,
        TeardownOp.dispose]).1.listenerActive = false :=
  ⟨by decide,
   (close_idempotent_no_remote { listenerActive := true, emitterActive := true }
     [TeardownOp.close, TeardownOp.close, TeardownOp.dispose]
     (by decide)).2.2.1,
   (close_idempotent_no_remote { listenerActive := true, emitterActive := true }
     [TeardownOp.close, TeardownOp.close, TeardownOp.dispose]
     (by decide)).2.2.2⟩

end StorageIpc
